import Mathlib

/-!
Shallow embedding of src/employee_analysis.py.

The script loads employees.csv if present, otherwise synthesizes 100
employee records with a seeded pseudo-random generator and persists them;
it prints the Finance department frequency, renders a department bar
chart, and writes an HTML report embedding the chart and the HTML-escaped
source text.

Modelling decisions:
* A pandas DataFrame is a list of named columns of cells; a cell is a
  string or an integer (the two dtypes this program produces or reads).
* numpy's default_rng(7) is an external library generator (PCG64).  The
  spec (section 9) states that any explicit seeded pseudo-random generator
  supporting weighted categorical sampling and uniform integer sampling is
  a functionally equivalent substitution, so the embedding uses a concrete
  64-bit linear congruential generator threaded through the same sampling
  calls (weighted categorical via inverse CDF, uniform integers via mod),
  with the same seed, category lists and weights as the source.
* The filesystem is the pair of the two fixed paths the program touches.
* Chart rasterization and base64 encoding of the PNG are opaque to every
  claim; the chart is modelled down to the data actually drawn (the bars:
  labels and counts, in rendered order), and the embedded image string is
  a serialization of this bar data.
-/

namespace EmployeeAnalysis

/-- A cell of the table: pandas columns here are either string-typed or
integer-typed (the dtypes produced by generation and by CSV inference). -/
inductive Cell where
  | str (s : String)
  | int (n : ℤ)
deriving DecidableEq

/-- A DataFrame: ordered named columns, as built from the dict literal in
load_or_generate_data or by read_csv. -/
abbrev DataFrame : Type := List (String × List Cell)

/-- Column access df[name] : first column with that name, none when the
column is absent (pandas raises KeyError then). -/
def getCol (df : DataFrame) (name : String) : Option (List Cell) :=
  (List.find? (fun p => p.1 == name) df).map Prod.snd

/-- Number of rows of the table (length of its first column). -/
def nRows (df : DataFrame) : Nat :=
  match df with
  | [] => 0
  | c :: _ => c.2.length

/-- Rendering of a cell for CSV output, as pandas to_csv writes it. -/
def cellRender (c : Cell) : String :=
  match c with
  | .str s => s
  | .int n => toString n

/-- Python == between a department cell and a string literal: exact,
case-sensitive string equality; an integer cell never equals a string. -/
def cellEqStr (c : Cell) (s : String) : Bool :=
  match c with
  | .str t => t == s
  | .int _ => false

/-! ### Seeded pseudo-random generator (explicit substitute for numpy
default_rng, per spec section 9) -/

/-- Generator state: a 64-bit word. -/
structure RngState where
  s : Nat
deriving DecidableEq

/-- One LCG step (Knuth MMIX constants), producing a 64-bit output and the
next state. -/
def rngNext (st : RngState) : Nat × RngState :=
  let v := (6364136223846793005 * st.s + 1442695040888963407) % (2 ^ 64)
  (v, ⟨v⟩)

/-- Seeding: default_rng(seed). -/
def rngInit (seed : Nat) : RngState := ⟨seed % (2 ^ 64)⟩

/-- A uniform rational in [0,1) drawn from the generator. -/
def uniformQ (st : RngState) : ℚ × RngState :=
  let p := rngNext st
  ((p.1 : ℚ) / (2 ^ 64 : ℚ), p.2)

/-- Inverse-CDF selection for weighted categorical sampling: walk the
items against cumulative weights; the last item catches any remainder
(as numpy's searchsorted clamps to the last index). -/
def weightedPick (u : ℚ) (items : List String) (ws : List ℚ) : Option String :=
  match items, ws with
  | [], _ => none
  | [a], _ => some a
  | a :: _ :: _, [] => some a
  | a :: b :: rest, w :: wtl =>
      if u < w then some a else weightedPick (u - w) (b :: rest) wtl

/-- One draw of rng.choice(items, p=ws). -/
def choiceOne (items : List String) (ws : List ℚ) (st : RngState) :
    String × RngState :=
  let p := uniformQ st
  ((weightedPick p.1 items ws).getD (items.headD ""), p.2)

/-- rng.choice(items, size=n, p=ws): n draws threading the state. -/
def choiceN (n : Nat) (items : List String) (ws : List ℚ) (st : RngState) :
    List String × RngState :=
  match n with
  | 0 => ([], st)
  | m + 1 =>
      let p := choiceOne items ws st
      let q := choiceN m items ws p.2
      (p.1 :: q.1, q.2)

/-- One draw of rng.integers(lo, hi): a uniform integer in [lo, hi). -/
def integersOne (lo hi : Nat) (st : RngState) : Nat × RngState :=
  let p := rngNext st
  (lo + p.1 % (hi - lo), p.2)

/-- rng.integers(lo, hi, size=n): n draws threading the state. -/
def integersN (lo hi n : Nat) (st : RngState) : List Nat × RngState :=
  match n with
  | 0 => ([], st)
  | m + 1 =>
      let p := integersOne lo hi st
      let q := integersN lo hi m p.2
      (p.1 :: q.1, q.2)

/-! ### Data synthesis (the else-branch of load_or_generate_data) -/

/-- The six department categories of the source. -/
def departments : List String :=
  ["Finance", "HR", "IT", "Operations", "Sales", "Marketing"]

/-- The four region categories of the source. -/
def regions : List String := ["North", "South", "East", "West"]

/-- Department sampling weights p=[0.18, 0.12, 0.22, 0.20, 0.18, 0.10]. -/
def deptWeights : List ℚ :=
  [18 / 100, 12 / 100, 22 / 100, 20 / 100, 18 / 100, 10 / 100]

/-- Region sampling weights p=[0.3, 0.25, 0.25, 0.2]. -/
def regionWeights : List ℚ := [30 / 100, 25 / 100, 25 / 100, 20 / 100]

/-- The synthetic table: Employee_ID = range(1, 101), Department and
Region drawn by weighted choice, Performance_Score by integers(1, 6),
with the generator seeded and threaded in source order. -/
def generateData (seed : Nat) : DataFrame :=
  let st0 := rngInit seed
  let d := choiceN 100 departments deptWeights st0
  let r := choiceN 100 regions regionWeights d.2
  let s := integersN 1 6 100 r.2
  [("Employee_ID", (List.range 100).map (fun (i : Nat) => Cell.int ((i : ℤ) + 1))),
   ("Department", d.1.map Cell.str),
   ("Region", r.1.map Cell.str),
   ("Performance_Score", s.1.map (fun (n : Nat) => Cell.int (n : ℤ)))]

/-! ### CSV persistence and parsing -/

/-- pd.to_csv(index=False): header row of column names, then one comma
joined line per record, with a trailing newline. -/
def to_csv (df : DataFrame) : String :=
  let header := String.intercalate "," (df.map Prod.fst)
  let rows := (List.transpose (df.map Prod.snd)).map
    (fun row => String.intercalate "," (row.map cellRender))
  String.intercalate "\n" (header :: rows) ++ "\n"

/-- Split a char list at every occurrence of the separator (the list of
fields between separators, empty fields included). -/
def splitOnChar (sep : Char) (l : List Char) : List (List Char) :=
  match l with
  | [] => [[]]
  | c :: rest =>
      let r := splitOnChar sep rest
      if c = sep then [] :: r
      else (c :: r.headD []) :: r.tail

/-- Value of a digit string. -/
def digitsVal (l : List Char) : Nat :=
  l.foldl (fun acc c => 10 * acc + (c.toNat - 48)) 0

/-- Numeric dtype inference of read_csv, restricted to the nonnegative
integers this program ever writes: an all-digit field loads as an integer
column cell, anything else as a string. -/
def parseCell (s : String) : Cell :=
  if s.data ≠ [] ∧ s.data.all Char.isDigit then
    Cell.int (digitsVal s.data : ℤ)
  else Cell.str s

/-- pd.read_csv: first non-empty line is the header naming the columns;
remaining lines are records, split on commas, cells dtype-inferred. -/
def read_csv (content : String) : DataFrame :=
  match ((splitOnChar '\n' content.data).map String.mk).filter (fun l => l ≠ "") with
  | [] => []
  | header :: rows =>
      let names := (splitOnChar ',' header.data).map String.mk
      let cells := rows.map (fun r => ((splitOnChar ',' r.data).map String.mk).map parseCell)
      names.enum.map
        (fun p => (p.2, cells.map (fun row => row.getD p.1 (Cell.str ""))))

/-! ### Filesystem model -/

/-- The two fixed paths the program touches: employees.csv and
employee_report.html; none means the file is absent. -/
structure FS where
  csv : Option String
  html : Option String
deriving DecidableEq

/-- load_or_generate_data: read the CSV when the file exists, otherwise
generate the seeded synthetic table and persist it. -/
def load_or_generate_data (fs : FS) : DataFrame × FS :=
  match fs.csv with
  | some content => (read_csv content, fs)
  | none =>
      let df := generateData 7
      (df, { fs with csv := some (to_csv df) })

/-! ### Chart renderer (plot_department_distribution), modelled down to
the data drawn: the bar labels and heights, left to right -/

/-- Lexicographic comparison of char lists by code point, the order
Python and pandas use on strings. -/
def charListLe : List Char → List Char → Bool
  | [], _ => true
  | _ :: _, [] => false
  | a :: as, b :: bs => if a < b then true else if b < a then false else charListLe as bs

/-- Lexicographic string comparison by code point. -/
def strLe (a b : String) : Bool := charListLe a.data b.data

/-- pandas Series.value_counts(): one (value, count) pair per distinct
value, ordered by count descending. -/
def value_counts (l : List String) : List (String × Nat) :=
  List.insertionSort (fun a b => b.2 ≤ a.2) (l.dedup.map (fun d => (d, l.count d)))

/-- pandas sort_index(): reorder the pairs by label ascending. -/
def sort_index (ps : List (String × Nat)) : List (String × Nat) :=
  List.insertionSort (fun a b => strLe a.1 b.1 = true) ps

/-- The bars drawn by plot_department_distribution: counts of the
Department column, sorted by label. -/
def chartBars (col : List String) : List (String × Nat) :=
  sort_index (value_counts col)

/-- PNG bytes of the rendered figure. Rasterization is outside the
embedding; the bytes are a serialization of the data actually drawn. -/
def pngBytes (bars : List (String × Nat)) : List Nat :=
  (toString bars).data.map Char.toNat

/-- The base64 alphabet. -/
def base64Chars : List Char :=
  "ABCDEFGHIJKLMNOPQRSTUVWXYZabcdefghijklmnopqrstuvwxyz0123456789+/".data

/-- base64.b64encode(...).decode(\"ascii\"): standard base64 with padding
over a byte list. -/
def b64encode (bytes : List Nat) : String :=
  match bytes with
  | [] => ""
  | [a] =>
      String.mk [base64Chars.getD (a / 4) 'A',
                 base64Chars.getD (a % 4 * 16) 'A'] ++ "=="
  | [a, b] =>
      String.mk [base64Chars.getD (a / 4) 'A',
                 base64Chars.getD (a % 4 * 16 + b / 16) 'A',
                 base64Chars.getD (b % 16 * 4) 'A'] ++ "="
  | a :: b :: c :: rest =>
      String.mk [base64Chars.getD (a / 4) 'A',
                 base64Chars.getD (a % 4 * 16 + b / 16) 'A',
                 base64Chars.getD (b % 16 * 4 + c / 64) 'A',
                 base64Chars.getD (c % 64) 'A'] ++ b64encode rest

/-! ### HTML escaping of the embedded source (main, lines 110-113) -/

/-- Python str.replace(pat, rep): scan left to right, replacing each
non-overlapping occurrence of pat (here always non-empty). -/
def replaceL (pat rep : List Char) : List Char → List Char
  | [] => []
  | c :: rest =>
      if _hp : pat.length ≠ 0 ∧ pat.isPrefixOf (c :: rest) = true then
        rep ++ replaceL pat rep ((c :: rest).drop pat.length)
      else
        c :: replaceL pat rep rest
termination_by l => l.length
decreasing_by
  · have h1 := _hp.1
    simp only [List.length_drop, List.length_cons]
    omega
  · simp only [List.length_cons]
    omega

/-- str.replace on strings. -/
def pyReplace (s pat rep : String) : String :=
  String.mk (replaceL pat.data rep.data s.data)

/-- The escaping chain of main: ampersand first, then less-than, then
greater-than. -/
def escapeHtml (s : String) : String :=
  pyReplace (pyReplace (pyReplace s "&" "&amp;") "<" "&lt;") ">" "&gt;"

/-! ### Report builder (build_html_report) -/

/-- The report template before the finance count. -/
def reportPre : String :=
"<!doctype html>
<html lang=\"en\">
<head>
  <meta charset=\"utf-8\" />
  <title>Employee Analysis Report</title>
  <meta name=\"viewport\" content=\"width=device-width, initial-scale=1\" />
  <style>
    body \x7b font-family: system-ui, -apple-system, Segoe UI, Roboto, Arial, sans-serif; margin: 24px; \x7d
    h1, h2 \x7b margin: 0.2em 0; \x7d
    .code \x7b white-space: pre; background: #f5f5f5; border: 1px solid #e0e0e0; padding: 12px; overflow-x: auto; \x7d
    .meta \x7b color: #444; margin-bottom: 16px; \x7d
    .imgwrap \x7b display: flex; justify-content: center; margin: 16px 0; \x7d
  </style>
</head>
<body>
  <h1>Employee Performance Analysis</h1>
  <div class=\"meta\">Author contact: <strong>24ds1000011@ds.study.iitm.ac.in</strong></div>

  <h2>Finance Department Frequency</h2>
  <p>Number of employees in <strong>Finance</strong>: <strong>"

/-- The report template between the finance count and the image data. -/
def reportMid1 : String :=
"</strong></p>

  <h2>Department Distribution (Histogram-style)</h2>
  <div class=\"imgwrap\">
    <img alt=\"Department Distribution\" src=\"data:image/png;base64,"

/-- The report template between the image data and the code text. -/
def reportMid2 : String :=
"\" />
  </div>

  <h2>Python Code</h2>
  <div class=\"code\">"

/-- The report template after the code text. -/
def reportPost : String :=
"</div>
</body>
</html>"

/-- build_html_report: the f-string template with the three interpolated
values (the finance count, the base64 image, the escaped code text). -/
def build_html_report (code_text : String) (img_b64 : String)
    (finance_count : Nat) : String :=
  reportPre ++ toString finance_count ++ reportMid1 ++ img_b64 ++
    reportMid2 ++ code_text ++ reportPost

/-! ### Orchestrator (main) -/

/-- The Python exceptions the modelled run can raise. -/
inductive PyError where
  | keyError (k : String)
deriving DecidableEq

/-- The line printed to standard output. -/
def finance_line (n : Nat) : String :=
  "Finance department frequency: " ++ toString n ++ "\n"

/-- main: load or generate the data, count Finance (KeyError when the
Department column is absent, before anything is printed), print the
frequency line, render the chart, escape this program's own source text
and write the report.  The result is the final filesystem plus either the
standard output or the uncaught exception. -/
def main (sourceText : String) (fs : FS) : FS × Except PyError String :=
  let w := load_or_generate_data fs
  match getCol w.1 "Department" with
  | none => (w.2, Except.error (PyError.keyError "Department"))
  | some col =>
      let finance_count := (col.map (fun c => cellEqStr c "Finance")).count true
      let out := finance_line finance_count
      let bars := chartBars (col.map cellRender)
      let img_b64 := b64encode (pngBytes bars)
      let code_text := escapeHtml sourceText
      let html := build_html_report code_text img_b64 finance_count
      ({ w.2 with html := some html }, Except.ok out)

/-! ## Helper lemmas -/

theorem choiceN_length (n : Nat) (items : List String) (ws : List ℚ)
    (st : RngState) : ((choiceN n items ws st).1).length = n := by
  induction n generalizing st with
  | zero => rfl
  | succ m ih => simp [choiceN, ih]

theorem integersN_length (lo hi n : Nat) (st : RngState) :
    ((integersN lo hi n st).1).length = n := by
  induction n generalizing st with
  | zero => rfl
  | succ m ih => simp [integersN, ih]

theorem weightedPick_mem : ∀ (u : ℚ) (items : List String) (ws : List ℚ)
    (x : String), weightedPick u items ws = some x → x ∈ items := by
  intro u items
  induction items generalizing u with
  | nil => intro ws x h; simp [weightedPick] at h
  | cons a tl ih =>
    intro ws x h
    cases tl with
    | nil =>
      simp [weightedPick] at h
      simp [h]
    | cons b rest =>
      cases ws with
      | nil =>
        simp [weightedPick] at h
        simp [h]
      | cons w wtl =>
        rw [weightedPick] at h
        by_cases hu : u < w
        · rw [if_pos hu] at h
          simp at h
          simp [h]
        · rw [if_neg hu] at h
          exact List.mem_cons_of_mem a (ih (u - w) wtl x h)

theorem weightedPick_isSome : ∀ (u : ℚ) (items : List String) (ws : List ℚ),
    items ≠ [] → (weightedPick u items ws).isSome = true := by
  intro u items
  induction items generalizing u with
  | nil => intro ws h; exact absurd rfl h
  | cons a tl ih =>
    intro ws _
    cases tl with
    | nil => simp [weightedPick]
    | cons b rest =>
      cases ws with
      | nil => simp [weightedPick]
      | cons w wtl =>
        rw [weightedPick]
        by_cases hu : u < w
        · rw [if_pos hu]; rfl
        · rw [if_neg hu]
          exact ih (u - w) wtl (by simp)

theorem choiceOne_mem (items : List String) (ws : List ℚ) (st : RngState)
    (h : items ≠ []) : (choiceOne items ws st).1 ∈ items := by
  unfold choiceOne
  cases hwp : weightedPick (uniformQ st).1 items ws with
  | none =>
    have := weightedPick_isSome (uniformQ st).1 items ws h
    rw [hwp] at this
    simp at this
  | some x =>
    simp only [hwp, Option.getD_some]
    exact weightedPick_mem (uniformQ st).1 items ws x hwp

theorem choiceN_mem (n : Nat) (items : List String) (ws : List ℚ)
    (st : RngState) (h : items ≠ []) :
    ∀ x ∈ (choiceN n items ws st).1, x ∈ items := by
  induction n generalizing st with
  | zero => intro x hx; simp [choiceN] at hx
  | succ m ih =>
    intro x hx
    simp only [choiceN] at hx
    rcases List.mem_cons.mp hx with hx1 | hx2
    · rw [hx1]; exact choiceOne_mem items ws st h
    · exact ih _ x hx2

theorem integersOne_bounds (lo hi : Nat) (st : RngState) (h : lo < hi) :
    lo ≤ (integersOne lo hi st).1 ∧ (integersOne lo hi st).1 < hi := by
  simp only [integersOne]
  have hm := Nat.mod_lt (rngNext st).1 (y := hi - lo) (by omega)
  constructor
  · exact Nat.le_add_right lo _
  · omega

theorem integersN_mem (lo hi n : Nat) (st : RngState) (h : lo < hi) :
    ∀ x ∈ (integersN lo hi n st).1, lo ≤ x ∧ x < hi := by
  induction n generalizing st with
  | zero => intro x hx; simp [integersN] at hx
  | succ m ih =>
    intro x hx
    simp only [integersN] at hx
    rcases List.mem_cons.mp hx with hx1 | hx2
    · rw [hx1]; exact integersOne_bounds lo hi st h
    · exact ih _ x hx2

/-- Specification-side Finance count (spec section 4.2, stated from the
spec's words for the refinement comparison): the number of records whose
department field equals the target exactly, case-sensitive, no
normalization. -/
def specCountFinance (col : List Cell) : Nat :=
  (col.filter (fun c => c = Cell.str "Finance")).length

theorem count_mask_eq_specCount (col : List Cell) :
    (col.map (fun c => cellEqStr c "Finance")).count true =
      specCountFinance col := by
  induction col with
  | nil => rfl
  | cons c tl ih =>
    cases c with
    | str t =>
      by_cases ht : t = "Finance"
      · subst ht
        simp only [specCountFinance, List.map_cons, List.filter_cons,
          List.count_cons, cellEqStr] at ih ⊢
        simp [ih]
      · simp only [specCountFinance, List.map_cons, List.filter_cons,
          List.count_cons, cellEqStr] at ih ⊢
        simp [ih, ht, Cell.str.injEq]
    | int n =>
      simp only [specCountFinance, List.map_cons, List.filter_cons,
        List.count_cons, cellEqStr] at ih ⊢
      simp [ih]

/-! ## Escaping properties -/

/-- The entity expansion of one source character: what the three chained
replaces of main do to it. -/
def escChar (c : Char) : List Char :=
  if c = '&' then ['&', 'a', 'm', 'p', ';']
  else if c = '<' then ['&', 'l', 't', ';']
  else if c = '>' then ['&', 'g', 't', ';']
  else [c]

theorem replaceL_singleton (a : Char) (rep : List Char) :
    ∀ l : List Char, replaceL [a] rep l =
      l.flatMap (fun c => if c = a then rep else [c]) := by
  intro l
  induction l with
  | nil => rw [replaceL]; rfl
  | cons c rest ih =>
    rw [replaceL]
    by_cases hc : c = a
    · subst hc
      rw [dif_pos ⟨by simp, by simp [List.isPrefixOf]⟩]
      simp [ih]
    · have hnp : ¬ (([a] : List Char).length ≠ 0 ∧
          ([a] : List Char).isPrefixOf (c :: rest) = true) := by
        simp [List.isPrefixOf]
        exact fun h => absurd h.symm hc
      rw [dif_neg hnp]
      simp [ih, hc]

theorem escChar_fuse (c : Char) :
    ((if c = '&' then ['&', 'a', 'm', 'p', ';'] else [c]).flatMap fun d =>
        (if d = '<' then ['&', 'l', 't', ';'] else [d]).flatMap fun e =>
          if e = '>' then ['&', 'g', 't', ';'] else [e]) = escChar c := by
  by_cases h1 : c = '&'
  · subst h1; rfl
  · by_cases h2 : c = '<'
    · subst h2; rfl
    · by_cases h3 : c = '>'
      · subst h3; rfl
      · simp [escChar, h1, h2, h3]

theorem escapeHtml_data (s : String) :
    (escapeHtml s).data = s.data.flatMap escChar := by
  show (pyReplace (pyReplace (pyReplace s "&" "&amp;") "<" "&lt;") ">" "&gt;").data =
    s.data.flatMap escChar
  simp only [pyReplace]
  rw [replaceL_singleton, replaceL_singleton, replaceL_singleton,
    List.flatMap_assoc, List.flatMap_assoc]
  exact congrArg s.data.flatMap (funext escChar_fuse)

/-- The three entity tails that may legitimately follow an ampersand in
the escaped text. -/
def entityTails : List (List Char) := [['a', 'm', 'p', ';'], ['l', 't', ';'], ['g', 't', ';']]

/-- No literal markup remains: the text has no less-than and no
greater-than character, and every ampersand starts one of the intended
entity encodings amp, lt, gt. -/
def wellEscaped : List Char → Bool
  | [] => true
  | c :: rest =>
      if c = '<' ∨ c = '>' then false
      else if c = '&' then
        entityTails.any (fun t => t.isPrefixOf rest) && wellEscaped rest
      else wellEscaped rest

theorem escChar_wellEscaped (c : Char) (l : List Char)
    (hl : wellEscaped l = true) : wellEscaped (escChar c ++ l) = true := by
  by_cases h1 : c = '&'
  · subst h1
    simp [escChar, wellEscaped, entityTails, List.isPrefixOf, hl]
  · by_cases h2 : c = '<'
    · subst h2
      simp [escChar, wellEscaped, entityTails, List.isPrefixOf, hl]
    · by_cases h3 : c = '>'
      · subst h3
        simp [escChar, wellEscaped, entityTails, List.isPrefixOf, hl]
      · simp [escChar, wellEscaped, h1, h2, h3, hl]

theorem wellEscaped_flatMap (l : List Char) :
    wellEscaped (l.flatMap escChar) = true := by
  induction l with
  | nil => rfl
  | cons c rest ih =>
    rw [List.flatMap_cons]
    exact escChar_wellEscaped c _ ih

/-! ## Order properties of the chart sort -/

theorem charListLe_total : ∀ (x y : List Char),
    charListLe x y = true ∨ charListLe y x = true := by
  intro x
  induction x with
  | nil => intro y; left; rfl
  | cons a as ih =>
    intro y
    cases y with
    | nil => right; rfl
    | cons b bs =>
      rw [charListLe, charListLe]
      by_cases hab : a < b
      · left; rw [if_pos hab]
      · by_cases hba : b < a
        · right; rw [if_pos hba]
        · rw [if_neg hab, if_neg hba, if_neg hba, if_neg hab]
          exact ih bs

theorem charListLe_trans : ∀ (x y z : List Char), charListLe x y = true →
    charListLe y z = true → charListLe x z = true := by
  intro x
  induction x with
  | nil => intro y z h1 h2; rfl
  | cons a as ih =>
    intro y z h1 h2
    cases y with
    | nil => rw [charListLe] at h1; exact absurd h1 (by simp)
    | cons b bs =>
      cases z with
      | nil => rw [charListLe] at h2; exact absurd h2 (by simp)
      | cons c cs =>
        rw [charListLe] at h1 h2 ⊢
        by_cases hab : a < b
        · by_cases hbc : b < c
          · rw [if_pos (lt_trans hab hbc)]
          · by_cases hcb : c < b
            · rw [if_neg hbc, if_pos hcb] at h2; exact absurd h2 (by simp)
            · have hbceq : b = c := le_antisymm (not_lt.mp hcb) (not_lt.mp hbc)
              subst hbceq
              rw [if_pos hab]
        · by_cases hba : b < a
          · rw [if_neg hab, if_pos hba] at h1; exact absurd h1 (by simp)
          · have habeq : a = b := le_antisymm (not_lt.mp hba) (not_lt.mp hab)
            subst habeq
            rw [if_neg hab, if_neg hba] at h1
            by_cases hac : a < c
            · rw [if_pos hac]
            · by_cases hca : c < a
              · rw [if_neg hac, if_pos hca] at h2; exact absurd h2 (by simp)
              · rw [if_neg hac, if_neg hca] at h2 ⊢
                exact ih bs cs h1 h2

instance : IsTotal (String × Nat) (fun a b => strLe a.1 b.1 = true) :=
  ⟨fun a b => charListLe_total a.1.data b.1.data⟩

instance : IsTrans (String × Nat) (fun a b => strLe a.1 b.1 = true) :=
  ⟨fun a b c => charListLe_trans a.1.data b.1.data c.1.data⟩

/-! ## Unfolding helpers for the dataset provider -/

theorem load_fresh (fs : FS) (h : fs.csv = none) :
    load_or_generate_data fs =
      (generateData 7, { fs with csv := some (to_csv (generateData 7)) }) := by
  simp [load_or_generate_data, h]

theorem load_existing (fs : FS) (c : String) (h : fs.csv = some c) :
    load_or_generate_data fs = (read_csv c, fs) := by
  simp [load_or_generate_data, h]

/-! ## Claim theorems -/

/-- A small concrete dataset file used by witnesses: two records, one of
them in Finance. -/
def sampleCsv : String :=
  "Employee_ID,Department,Region,Performance_Score\n1,Finance,North,3\n2,IT,South,4\n"

/-- C1: with the synthesis seed fixed at 7, any two runs started with no
dataset file present persist byte-identical dataset files: the
data-generation branch of load_or_generate_data writes a string that is a
function of the seed alone, whatever else the two starting filesystems
hold. -/
theorem generated_csv_deterministic (fsa fsb : FS)
    (h1 : fsa.csv = none) (h2 : fsb.csv = none) :
    (load_or_generate_data fsa).2.csv = some (to_csv (generateData 7)) ∧
    (load_or_generate_data fsa).2.csv = (load_or_generate_data fsb).2.csv := by
  rw [load_fresh fsa h1, load_fresh fsb h2]
  exact ⟨rfl, rfl⟩

/-- C1 witness: two fresh filesystems that differ elsewhere still persist
the same dataset bytes. -/
theorem generated_csv_deterministic_witness :
    ((⟨none, none⟩ : FS).csv = none) ∧
    (load_or_generate_data ⟨none, none⟩).2.csv =
      (load_or_generate_data ⟨none, some "stale report"⟩).2.csv :=
  ⟨rfl, (generated_csv_deterministic ⟨none, none⟩ ⟨none, some "stale report"⟩
    rfl rfl).2⟩

theorem ids_range' :
    (List.range 100).map (fun (i : Nat) => Cell.int ((i : ℤ) + 1)) =
      (List.range' 1 100).map (fun (n : Nat) => Cell.int (n : ℤ)) := by
  rw [List.range'_eq_map_range, List.map_map]
  refine List.map_congr_left (fun a ha => ?_)
  simp [Nat.cast_add, add_comm]

/-- C2: when no file exists at the dataset path, the returned table has
exactly 100 records (every column has length 100) and its Employee_ID
column is the sequential integers 1..100, contiguous and unique. -/
theorem fresh_table_has_100_sequential_ids (fs : FS) (h : fs.csv = none) :
    ∃ ids, getCol (load_or_generate_data fs).1 "Employee_ID" = some ids ∧
      ids = (List.range' 1 100).map (fun (n : Nat) => Cell.int (n : ℤ)) ∧
      ids.length = 100 ∧ ids.Nodup ∧
      ∀ col ∈ (load_or_generate_data fs).1, col.2.length = 100 := by
  rw [load_fresh fs h]
  refine ⟨(List.range' 1 100).map (fun (n : Nat) => Cell.int (n : ℤ)),
    ?_, rfl, by simp, ?_, ?_⟩
  · rw [← ids_range']; rfl
  · refine List.Nodup.map ?_ (List.nodup_range' 1 100)
    intro a b hab
    simpa using hab
  · intro col hc
    simp only [generateData, List.mem_cons, List.not_mem_nil, or_false] at hc
    rcases hc with hc | hc | hc | hc <;> rw [hc] <;>
      simp [choiceN_length, integersN_length]

/-- C2 witness: a concrete fresh filesystem satisfies the precondition
and hence the conclusion. -/
theorem fresh_table_has_100_sequential_ids_witness :
    ((⟨none, none⟩ : FS).csv = none) ∧
    ∃ ids, getCol (load_or_generate_data ⟨none, none⟩).1 "Employee_ID" = some ids ∧
      ids = (List.range' 1 100).map (fun (n : Nat) => Cell.int (n : ℤ)) ∧
      ids.length = 100 ∧ ids.Nodup ∧
      ∀ col ∈ (load_or_generate_data ⟨none, none⟩).1, col.2.length = 100 :=
  ⟨rfl, fresh_table_has_100_sequential_ids ⟨none, none⟩ rfl⟩

/-- C8: every synthesized record draws its department from exactly the
six fixed categories and its region from the four fixed regions — the
weighted samplers are invoked with the weight lists deptWeights =
[0.18, 0.12, 0.22, 0.20, 0.18, 0.10] and regionWeights =
[0.30, 0.25, 0.25, 0.20] — and its performance score is an integer drawn
from the inclusive range 1..5. -/
theorem synthesized_values_from_fixed_sets (seed : Nat) :
    ∃ dc rc sc,
      getCol (generateData seed) "Department" = some (List.map Cell.str dc) ∧
      dc = (choiceN 100 departments deptWeights (rngInit seed)).1 ∧
      (∀ d ∈ dc, d ∈ departments) ∧
      getCol (generateData seed) "Region" = some (List.map Cell.str rc) ∧
      (∀ r ∈ rc, r ∈ regions) ∧
      getCol (generateData seed) "Performance_Score" =
        some (List.map (fun (n : Nat) => Cell.int (n : ℤ)) sc) ∧
      (∀ x ∈ sc, 1 ≤ x ∧ x ≤ 5) := by
  refine ⟨_, _, _, rfl, rfl, ?_, rfl, ?_, rfl, ?_⟩
  · exact choiceN_mem 100 departments deptWeights (rngInit seed)
      (by simp [departments])
  · exact choiceN_mem 100 regions regionWeights _ (by simp [regions])
  · intro x hx
    have hb := integersN_mem 1 6 100 _ (by omega) x hx
    omega

/-- C10: the table generated on a fresh run always carries a Department
column, so the missing-column failure of the aggregation step is
unreachable there: main returns normally. -/
theorem fresh_run_cannot_miss_department (src : String) (fs : FS)
    (h : fs.csv = none) :
    (getCol (load_or_generate_data fs).1 "Department").isSome = true ∧
    ∃ out, (main src fs).2 = Except.ok out := by
  constructor
  · rw [load_fresh fs h]; rfl
  · simp only [main]
    rw [load_fresh fs h]
    exact ⟨_, rfl⟩

/-- C10 witness: a concrete fresh run has the Department column and
finishes without the missing-column error. -/
theorem fresh_run_cannot_miss_department_witness :
    ((⟨none, none⟩ : FS).csv = none) ∧
    ((getCol (load_or_generate_data ⟨none, none⟩).1 "Department").isSome = true ∧
      ∃ out, (main "source text" ⟨none, none⟩).2 = Except.ok out) :=
  ⟨rfl, fresh_run_cannot_miss_department "source text" ⟨none, none⟩ rfl⟩

/-- C3: whatever table the run loads, whenever main prints, the printed
line is exactly "Finance department frequency: n" where n is the number
of Department cells equal to the string "Finance" — exact, case-sensitive
equality as the spec words it. -/
theorem printed_finance_count_is_exact_match_count (src : String) (fs : FS)
    (out : String) (h : (main src fs).2 = Except.ok out) :
    ∃ col, getCol (load_or_generate_data fs).1 "Department" = some col ∧
      out = "Finance department frequency: " ++
        toString (specCountFinance col) ++ "\n" := by
  simp only [main] at h
  cases hcol : getCol (load_or_generate_data fs).1 "Department" with
  | none => rw [hcol] at h; simp at h
  | some col =>
    rw [hcol] at h
    simp only [Except.ok.injEq] at h
    refine ⟨col, rfl, ?_⟩
    rw [← h, finance_line, count_mask_eq_specCount]

/-- C3 witness: on a concrete loaded table with one Finance record among
two, the printed line carries the exact-match count 1. -/
theorem printed_finance_count_is_exact_match_count_witness :
    (main "code text" ⟨some sampleCsv, none⟩).2 =
      Except.ok "Finance department frequency: 1\n" ∧
    ∃ col, getCol (load_or_generate_data ⟨some sampleCsv, none⟩).1
        "Department" = some col ∧
      "Finance department frequency: 1\n" = "Finance department frequency: " ++
        toString (specCountFinance col) ++ "\n" :=
  ⟨rfl, printed_finance_count_is_exact_match_count "code text"
    ⟨some sampleCsv, none⟩ "Finance department frequency: 1\n" rfl⟩

/-- C4: a run that finds a file at the dataset path leaves that file
unchanged, whatever its content or schema: the write branch of
load_or_generate_data runs only when the file is absent, and the rest of
the run writes only the report path. -/
theorem existing_csv_never_rewritten (src : String) (fs : FS) (c : String)
    (h : fs.csv = some c) :
    (load_or_generate_data fs).2.csv = some c ∧
    (main src fs).1.csv = some c := by
  constructor
  · rw [load_existing fs c h]; exact h
  · simp only [main]
    rw [load_existing fs c h]
    cases hcol : getCol (read_csv c) "Department" with
    | none => simp [hcol, h]
    | some col => simp [hcol, h]

/-- C4 witness: a run over a present dataset file of unrelated schema
leaves the file exactly as it was. -/
theorem existing_csv_never_rewritten_witness :
    ((⟨some "not,a\nvalid,schema\n", some "old report"⟩ : FS).csv =
      some "not,a\nvalid,schema\n") ∧
    (main "src" ⟨some "not,a\nvalid,schema\n", some "old report"⟩).1.csv =
      some "not,a\nvalid,schema\n" :=
  ⟨rfl, (existing_csv_never_rewritten "src"
    ⟨some "not,a\nvalid,schema\n", some "old report"⟩
    "not,a\nvalid,schema\n" rfl).2⟩

/-- C5: when the dataset file exists but its table has no Department
column, the run raises KeyError at the aggregation step: the failure is
fatal, and no output line — in particular no zero Finance count — is ever
printed. -/
theorem missing_department_is_fatal (src : String) (fs : FS) (c : String)
    (h : fs.csv = some c)
    (hcol : getCol (read_csv c) "Department" = none) :
    (main src fs).2 = Except.error (PyError.keyError "Department") ∧
    ∀ out, (main src fs).2 ≠ Except.ok out := by
  have hm : (main src fs).2 = Except.error (PyError.keyError "Department") := by
    simp only [main]
    rw [load_existing fs c h]
    simp [hcol]
  refine ⟨hm, fun out hout => ?_⟩
  rw [hm] at hout
  exact Except.noConfusion hout

/-- C5 witness: a present dataset file whose header lacks Department
makes the concrete run fail with KeyError and print nothing. -/
theorem missing_department_is_fatal_witness :
    ((⟨some "A,B\n1,2\n", none⟩ : FS).csv = some "A,B\n1,2\n") ∧
    getCol (read_csv "A,B\n1,2\n") "Department" = none ∧
    (main "src" ⟨some "A,B\n1,2\n", none⟩).2 =
      Except.error (PyError.keyError "Department") :=
  ⟨rfl, rfl, (missing_department_is_fatal "src" ⟨some "A,B\n1,2\n", none⟩
    "A,B\n1,2\n" rfl rfl).1⟩

/-- C9: the finance count rendered into the HTML report body is the very
integer printed to standard output: main computes the count once and
passes the same value to the report builder, which splices it between
the fixed template segments. -/
theorem report_count_equals_printed_count (src : String) (fs : FS)
    (out : String) (h : (main src fs).2 = Except.ok out) :
    ∃ n b64, out = finance_line n ∧
      (main src fs).1.html = some (reportPre ++ toString n ++ reportMid1 ++
        b64 ++ reportMid2 ++ escapeHtml src ++ reportPost) := by
  simp only [main] at h ⊢
  cases hcol : getCol (load_or_generate_data fs).1 "Department" with
  | none => rw [hcol] at h; simp at h
  | some col =>
    rw [hcol] at h
    simp only [Except.ok.injEq] at h
    exact ⟨(col.map (fun c => cellEqStr c "Finance")).count true, _, h.symm, rfl⟩

/-- C9 witness: on a concrete run, the printed line and the report body
carry the same count 1. -/
theorem report_count_equals_printed_count_witness :
    (main "a<b" ⟨some sampleCsv, none⟩).2 =
      Except.ok "Finance department frequency: 1\n" ∧
    ∃ n b64, "Finance department frequency: 1\n" = finance_line n ∧
      (main "a<b" ⟨some sampleCsv, none⟩).1.html =
        some (reportPre ++ toString n ++ reportMid1 ++ b64 ++ reportMid2 ++
          escapeHtml "a<b" ++ reportPost) :=
  ⟨rfl, report_count_equals_printed_count "a<b" ⟨some sampleCsv, none⟩
    "Finance department frequency: 1\n" rfl⟩

/-- C6: the escaping step is the chain ampersand-first, then less-than,
then greater-than, each replaced by its named entity; the escaped source
text contains no literal less-than or greater-than character, and every
remaining ampersand opens one of the intended entity encodings. -/
theorem escaped_source_has_no_literal_markup (s : String) :
    escapeHtml s =
      pyReplace (pyReplace (pyReplace s "&" "&amp;") "<" "&lt;") ">" "&gt;" ∧
    wellEscaped (escapeHtml s).data = true := by
  refine ⟨rfl, ?_⟩
  rw [escapeHtml_data]
  exact wellEscaped_flatMap s.data

/-- C7: the chart renderer draws one bar per distinct department carrying
that department's record count, ordered by label ascending
(lexicographic); in particular a table with departments IT, Finance, HR
draws Finance, HR, IT left to right. -/
theorem chart_bars_sorted_by_label (col : List String) :
    List.Pairwise (fun a b => strLe a b = true) ((chartBars col).map Prod.fst) ∧
    ((chartBars col).map Prod.fst).Perm col.dedup ∧
    ((chartBars col).map Prod.fst).Nodup ∧
    (∀ p ∈ chartBars col, p.2 = col.count p.1) ∧
    chartBars ["IT", "Finance", "HR"] = [("Finance", 1), ("HR", 1), ("IT", 1)] := by
  have hsorted : List.Sorted (fun (a b : String × Nat) => strLe a.1 b.1 = true)
      (sort_index (value_counts col)) :=
    List.sorted_insertionSort (fun a b => strLe a.1 b.1 = true) (value_counts col)
  have hperm1 : (sort_index (value_counts col)).Perm (value_counts col) :=
    List.perm_insertionSort _ _
  have hperm2 : (value_counts col).Perm
      (col.dedup.map (fun d => (d, col.count d))) :=
    List.perm_insertionSort _ _
  have hperm : (chartBars col).Perm (col.dedup.map (fun d => (d, col.count d))) :=
    hperm1.trans hperm2
  have hid : List.map (Prod.fst ∘ fun d => (d, List.count d col)) col.dedup
      = col.dedup := by
    rw [show (Prod.fst ∘ fun d => (d, List.count d col)) = id from rfl,
      List.map_id]
  refine ⟨?_, ?_, ?_, ?_, by decide⟩
  · exact List.Pairwise.map Prod.fst (fun a b hab => hab) hsorted
  · have hmf := hperm.map Prod.fst
    rw [List.map_map, hid] at hmf
    exact hmf
  · exact ((hperm.map Prod.fst).nodup_iff).mpr
      (by rw [List.map_map, hid]; exact col.nodup_dedup)
  · intro p hp
    have hmem : p ∈ col.dedup.map (fun d => (d, col.count d)) := hperm.mem_iff.mp hp
    rcases List.mem_map.mp hmem with ⟨d, _, hd⟩
    rw [← hd]

end EmployeeAnalysis
